import Mathlib

/-!
Verification of the OpenJuris-Scraper core against its specification.

Shallow embedding of the repository's Python sources:
 * `src/embedder/text_chunker.py`       — sentence splitting, chunk merging, overlap
 * `src/scrapers/lawphil/parsers/statute_parser.py` — citation extraction, body-part tree
 * `src/storage/repositories/vector.py` — similarity search query semantics
 * `src/storage/repositories/scrape_job.py` and `src/api/routers/scraper.py` — job states
 * `src/models/types/vector.py`         — vector bind processing
 * `src/utils/http_client.py`           — retrying fetch and text decoding

Strings are modelled as `List Char` (named `Str`) so that Python's character-level
slicing, stripping and searching translate directly.
-/

/-- Python-level strings are modelled as lists of characters. -/
abbrev Str := List Char

/-- Python `str.strip()` / `re` whitespace class for the ASCII range:
space, tab, newline, carriage return, vertical tab, form feed. -/
def isPySpace (c : Char) : Bool :=
  c == ' ' || c == '\t' || c == '\n' || c == '\r' || c == '\x0b' || c == '\x0c'

/-- Python `str.strip()`: drop whitespace from both ends. -/
def pyStrip (s : Str) : Str :=
  ((s.dropWhile isPySpace).reverse.dropWhile isPySpace).reverse

namespace TextChunker

/-- State machine for `re.sub(r'\s+', ' ', text)`: the flag records whether the
previous character was whitespace (so a whole run yields one space). -/
def collapseWSGo : Bool → Str → Str
  | _, [] => []
  | prevSpace, c :: cs =>
    if isPySpace c then
      if prevSpace then collapseWSGo true cs else ' ' :: collapseWSGo true cs
    else c :: collapseWSGo false cs

/-- `re.sub(r'\s+', ' ', text)`: collapse every whitespace run to a single space. -/
def collapseWS (s : Str) : Str := collapseWSGo false s

/-- State machine for `re.sub(r'\n{3,}', '\n\n', text)`: `pending` counts the
newline run read so far; a run of length `n` is emitted as `min n 2` newlines
exactly when `n` is `1`, `2`, or at least `3`. -/
def collapseNLGo : Nat → Str → Str
  | pending, [] => List.replicate (min pending 2) '\n'
  | pending, c :: cs =>
    if c == '\n' then collapseNLGo (pending + 1) cs
    else List.replicate (min pending 2) '\n' ++ c :: collapseNLGo 0 cs

/-- `re.sub(r'\n{3,}', '\n\n', text)`: collapse runs of three-or-more newlines to two. -/
def collapseNewlines (s : Str) : Str := collapseNLGo 0 s

/-- `TextChunker._clean_text`: normalize whitespace, collapse newline runs, strip. -/
def cleanText (text : Str) : Str :=
  pyStrip (collapseNewlines (collapseWS text))

/-- One sentence with its position, as built by `TextChunker._split_sentences`. -/
structure Sentence where
  content : Str
  start : Nat
  stop : Nat
deriving DecidableEq, Repr

/-- Characters ending a sentence: the `[.!?]` class of the splitting regex. -/
def isSentPunct (c : Char) : Bool := c == '.' || c == '!' || c == '?'

/-- The `[A-Z]` class of the splitting regex. -/
def isUpperAZ (c : Char) : Bool := 'A' ≤ c && c ≤ 'Z'

/-- Length of the maximal whitespace run of `t` starting at index `i`. -/
def wsRunLen (t : Str) (i : Nat) : Nat :=
  ((t.drop i).takeWhile isPySpace).length

/-- Does the lookbehind `(?<=[.!?])` hold at position `i`? -/
def prevIsPunct (t : Str) (i : Nat) : Bool :=
  match i with
  | 0 => false
  | j + 1 =>
    match t[j]? with
    | some c => isSentPunct c
    | none => false

/-- Length of the regex match starting at `i` for the sentence-splitting pattern
`(?<=[.!?])\s+(?=[A-Z])|(?<=[.!?])\s*\n`, or `none`.  The first alternative
matches the full whitespace run when the following character is `[A-Z]`
(shorter backtracks fail: intermediate run characters are whitespace); the
second matches greedily up to the last newline inside the run. -/
def matchLenAt (t : Str) (i : Nat) : Option Nat :=
  if prevIsPunct t i then
    let run := wsRunLen t i
    if 1 ≤ run && (t[i + run]?).any isUpperAZ then
      some run
    else
      let seg := (t.drop i).take run
      match seg.reverse.findIdx? (· == '\n') with
      | some k => some (run - k)
      | none => none
  else none

/-- Scan of `re.finditer` over `t`: every match as a `(start, stop)` pair.
`fuel` bounds the iteration count; `t.length + 1` is always sufficient since
every match is nonempty. -/
def findMatchesGo (t : Str) : Nat → Nat → List (Nat × Nat)
  | 0, _ => []
  | fuel + 1, i =>
    if i < t.length then
      match matchLenAt t i with
      | some len => (i, i + len) :: findMatchesGo t fuel (i + max len 1)
      | none => findMatchesGo t fuel (i + 1)
    else []

def findMatches (t : Str) : List (Nat × Nat) :=
  findMatchesGo t (t.length + 1) 0

/-- The loop body of `TextChunker._split_sentences`: cut `t` at the matches,
stripping each piece, and keep the stripped remainder after the final match. -/
def buildSentences (t : Str) : List (Nat × Nat) → Nat → List Sentence
  | [], lastEnd =>
    if lastEnd < t.length then
      let rem := pyStrip (t.drop lastEnd)
      if rem.isEmpty then [] else [⟨rem, lastEnd, t.length⟩]
    else []
  | (s, e) :: rest, lastEnd =>
    let sent := pyStrip ((t.drop lastEnd).take (s + 1 - lastEnd))
    let tail := buildSentences t rest e
    if sent.isEmpty then tail else ⟨sent, lastEnd, s + 1⟩ :: tail

/-- `TextChunker._split_sentences`. -/
def splitSentences (t : Str) : List Sentence :=
  buildSentences t (findMatches t) 0

/-- `str.find(' ', start)`: index of the first space at or after `start`. -/
def findSpaceFrom (t : Str) (start : Nat) : Option Nat :=
  match (t.drop start).findIdx? (· == ' ') with
  | some k => some (start + k)
  | none => none

/-- `TextChunker._get_overlap_text`: last `target` characters of `text`,
cut just after a space when one exists in that tail, otherwise raw. -/
def getOverlapText (text : Str) (target : Nat) : Str :=
  if text.length ≤ target then text
  else
    let overlapStart := text.length - target
    match findSpaceFrom text overlapStart with
    | some spacePos => text.drop (spacePos + 1)
    | none => text.drop overlapStart

/-- A chunk under construction, as the dicts of `_merge_sentences_to_chunks`. -/
structure RawChunk where
  content : Str
  start : Nat
  stop : Nat
deriving DecidableEq, Repr

/-- Loop body of `TextChunker._merge_sentences_to_chunks`. -/
def mergeStep (size overlap : Nat) (acc : RawChunk × List RawChunk) (s : Sentence) :
    RawChunk × List RawChunk :=
  let cur := acc.1
  let chunks := acc.2
  let potential := if cur.content.isEmpty then s.content else cur.content ++ ' ' :: s.content
  if potential.length ≤ size then
    ({ cur with content := pyStrip potential, stop := s.stop }, chunks)
  else
    let chunks := if cur.content.isEmpty then chunks else chunks ++ [cur]
    if !chunks.isEmpty && 0 < overlap then
      let overlapText := getOverlapText (chunks.getLastD ⟨[], 0, 0⟩).content overlap
      (⟨overlapText ++ ' ' :: s.content, s.start, s.stop⟩, chunks)
    else
      (⟨s.content, s.start, s.stop⟩, chunks)

/-- The final `if current_chunk["content"]: chunks.append(current_chunk)`. -/
def finalizeChunks (res : RawChunk × List RawChunk) : List RawChunk :=
  if res.1.content.isEmpty then res.2 else res.2 ++ [res.1]

/-- `TextChunker._merge_sentences_to_chunks`. -/
def mergeSentencesToChunks (size overlap : Nat) (sents : List Sentence) : List RawChunk :=
  match sents with
  | [] => []
  | s0 :: _ =>
    finalizeChunks (sents.foldl (mergeStep size overlap) (⟨[], s0.start, s0.stop⟩, []))

/-- `schemas/text_chunk.py` `TextChunk`. -/
structure TextChunk where
  content : Str
  index : Nat
  start_char : Nat
  end_char : Nat
  section_title : Option Str
deriving DecidableEq, Repr

/-- `enumerate` over the merged chunks, as in `chunk_text`'s final comprehension. -/
def attachIndices (sectionTitle : Option Str) : List RawChunk → Nat → List TextChunk
  | [], _ => []
  | c :: rest, i =>
    ⟨c.content, i, c.start, c.stop, sectionTitle⟩ :: attachIndices sectionTitle rest (i + 1)

/-- `TextChunker.chunk_text`. -/
def chunkText (size overlap : Nat) (text : Str) (sectionTitle : Option Str) :
    List TextChunk :=
  if text.isEmpty || (pyStrip text).isEmpty then []
  else
    let t := cleanText text
    let sents := splitSentences t
    attachIndices sectionTitle (mergeSentencesToChunks size overlap sents) 0

/-- Does `ovt` begin at a word boundary inside `prev`: either it is all of
`prev`, or it starts immediately after a space of `prev`. -/
def wordAlignedB (prev ovt : Str) : Bool :=
  ovt == prev ||
    (List.range prev.length).any (fun j => prev[j]? == some ' ' && ovt == prev.drop (j + 1))

theorem pyStrip_length_le (s : Str) : (pyStrip s).length ≤ s.length := by
  unfold pyStrip
  have h1 := (List.dropWhile_sublist (l := (s.dropWhile isPySpace).reverse) isPySpace).length_le
  have h2 := (List.dropWhile_sublist (l := s) isPySpace).length_le
  simp only [List.length_reverse] at h1 ⊢
  omega

theorem findSpaceFrom_spec (t : Str) (s sp : Nat) (h : findSpaceFrom t s = some sp) :
    s ≤ sp ∧ sp < t.length ∧ t[sp]? = some ' ' := by
  unfold findSpaceFrom at h
  rcases h' : (t.drop s).findIdx? (· == ' ') with _ | k <;> rw [h'] at h
  · cases h
  · cases h
    rw [List.findIdx?_eq_some_iff_getElem] at h'
    obtain ⟨hk, hp, -⟩ := h'
    rw [List.length_drop] at hk
    refine ⟨Nat.le_add_right _ _, by omega, ?_⟩
    have hget : (t.drop s)[k]? = t[s + k]? := List.getElem?_drop t s k
    rw [List.getElem?_eq_getElem (by rw [List.length_drop]; omega)] at hget
    rw [← hget]
    simp only [beq_iff_eq] at hp
    rw [hp]

theorem findSpaceFrom_none (t : Str) (s : Nat) (h : findSpaceFrom t s = none) :
    ∀ j, s ≤ j → j < t.length → t[j]? ≠ some ' ' := by
  unfold findSpaceFrom at h
  rcases h' : (t.drop s).findIdx? (· == ' ') with _ | k <;> rw [h'] at h
  · rw [List.findIdx?_eq_none_iff] at h'
    intro j hsj hjl hcontra
    have hd : (t.drop s).get? (j - s) = t.get? j := by
      rw [List.get?_drop]; congr 1; omega
    have hmem : (' ' : Char) ∈ t.drop s := by
      apply List.get?_mem (n := j - s)
      rw [hd, List.get?_eq_getElem?]
      exact hcontra
    have := h' ' ' hmem
    simp at this
  · cases h

theorem getOverlapText_length_le (t : Str) (n : Nat) :
    (getOverlapText t n).length ≤ n := by
  unfold getOverlapText
  split
  · assumption
  · rename_i hgt
    rcases hsp : findSpaceFrom t (t.length - n) with _ | sp <;> simp only [hsp]
    · rw [List.length_drop]; omega
    · obtain ⟨h1, h2, -⟩ := findSpaceFrom_spec t _ sp hsp
      rw [List.length_drop]; omega

theorem getOverlapText_is_drop (t : Str) (n : Nat) :
    ∃ k, getOverlapText t n = t.drop k := by
  unfold getOverlapText
  split
  · exact ⟨0, rfl⟩
  · rcases hsp : findSpaceFrom t (t.length - n) with _ | sp <;> simp only [hsp]
    · exact ⟨t.length - n, rfl⟩
    · exact ⟨sp + 1, rfl⟩

theorem getOverlapText_aligned (t : Str) (n : Nat)
    (h : ∃ j, t.length - n ≤ j ∧ j < t.length ∧ t[j]? = some ' ') :
    wordAlignedB t (getOverlapText t n) = true := by
  unfold getOverlapText
  split
  · simp [wordAlignedB]
  · rename_i hgt
    rcases hsp : findSpaceFrom t (t.length - n) with _ | sp <;> simp only [hsp]
    · obtain ⟨j, hj1, hj2, hj3⟩ := h
      exact absurd hj3 (findSpaceFrom_none _ _ hsp j hj1 hj2)
    · obtain ⟨h1, h2, h3⟩ := findSpaceFrom_spec t _ sp hsp
      unfold wordAlignedB
      rw [Bool.or_eq_true, List.any_eq_true]
      exact Or.inr ⟨sp, List.mem_range.mpr h2, by simp [h3]⟩

/-- The invariant established for every chunk content built by
`_merge_sentences_to_chunks` from the sentence list `sents`. -/
def ChunkInv (size overlap : Nat) (sents : List Sentence) (c : Str) : Prop :=
  c.length ≤ size ∨ (∃ s ∈ sents, c = s.content) ∨
    (∃ s ∈ sents, ∃ ovt : Str, ovt.length ≤ overlap ∧ c = ovt ++ ' ' :: s.content)

theorem mergeStep_inv {size overlap : Nat} {sents : List Sentence}
    (acc : RawChunk × List RawChunk) (s : Sentence) (hs : s ∈ sents)
    (h1 : ChunkInv size overlap sents acc.1.content)
    (h2 : ∀ c ∈ acc.2, ChunkInv size overlap sents c.content) :
    ChunkInv size overlap sents (mergeStep size overlap acc s).1.content ∧
      ∀ c ∈ (mergeStep size overlap acc s).2, ChunkInv size overlap sents c.content := by
  have hchunks2 : ∀ c ∈ acc.2 ++ [acc.1], ChunkInv size overlap sents c.content := by
    intro c hc
    rcases List.mem_append.mp hc with hc | hc
    · exact h2 c hc
    · rw [List.mem_singleton] at hc; subst hc; exact h1
  rcases hemp : acc.1.content.isEmpty with _ | _ <;>
    simp only [mergeStep, hemp, Bool.false_eq_true, if_false, if_true] <;>
    split
  case _ hle => exact ⟨Or.inl (le_trans (pyStrip_length_le _) hle), h2⟩
  case _ =>
    split
    · exact ⟨Or.inr (Or.inr ⟨s, hs, _, getOverlapText_length_le _ _, rfl⟩), hchunks2⟩
    · exact ⟨Or.inr (Or.inl ⟨s, hs, rfl⟩), hchunks2⟩
  case _ hle => exact ⟨Or.inl (le_trans (pyStrip_length_le _) hle), h2⟩
  case _ =>
    split
    · exact ⟨Or.inr (Or.inr ⟨s, hs, _, getOverlapText_length_le _ _, rfl⟩), h2⟩
    · exact ⟨Or.inr (Or.inl ⟨s, hs, rfl⟩), h2⟩

theorem mergeSentencesToChunks_inv (size overlap : Nat) (sents : List Sentence) :
    ∀ c ∈ mergeSentencesToChunks size overlap sents,
      ChunkInv size overlap sents c.content := by
  cases sents with
  | nil => intro c hc; simp [mergeSentencesToChunks] at hc
  | cons s0 rest =>
    intro c hc
    rw [show mergeSentencesToChunks size overlap (s0 :: rest) = finalizeChunks
        ((s0 :: rest).foldl (mergeStep size overlap) (⟨[], s0.start, s0.stop⟩, []))
      from rfl] at hc
    have H := List.foldlRecOn (s0 :: rest) (mergeStep size overlap)
      ((⟨[], s0.start, s0.stop⟩, []) : RawChunk × List RawChunk)
      (motive := fun p => ChunkInv size overlap (s0 :: rest) p.1.content ∧
        ∀ c ∈ p.2, ChunkInv size overlap (s0 :: rest) c.content)
      ⟨Or.inl (Nat.zero_le _), by simp⟩
      (fun b hb a ha => mergeStep_inv b a ha hb.1 hb.2)
    unfold finalizeChunks at hc
    split at hc
    · exact H.2 c hc
    · rcases List.mem_append.mp hc with hc | hc
      · exact H.2 c hc
      · rw [List.mem_singleton] at hc; subst hc; exact H.1

theorem attachIndices_content (st : Option Str) :
    ∀ (l : List RawChunk) (i : Nat) (c : TextChunk),
      c ∈ attachIndices st l i → ∃ rc ∈ l, c.content = rc.content := by
  intro l
  induction l with
  | nil => intro i c h; cases h
  | cons rc rest ih =>
    intro i c h
    rcases List.mem_cons.mp h with rfl | h
    · exact ⟨rc, List.mem_cons_self _ _, rfl⟩
    · obtain ⟨rc', hm, he⟩ := ih (i + 1) c h
      exact ⟨rc', List.mem_cons_of_mem _ hm, he⟩

/-- Input exhibiting an overflow-seeded chunk that exceeds the size bound. -/
def c1Text : Str := "Aaaa aaaa. Bbbb bbbb.".data

/-- The second chunk produced for `c1Text` with size 10 and overlap 5. -/
def c1Bad : TextChunk := (chunkText 10 5 c1Text none).getD 1 ⟨[], 0, 0, 0, none⟩

/-- Input whose first chunk's tail contains no space, so the overlap
fallback starts mid-word. -/
def c7Text : Str := "Aaaaaaaaa. Bbbb bbbb.".data

def c7Chunks : List TextChunk := chunkText 10 5 c7Text none

def c7Prev : Str := (c7Chunks.getD 0 ⟨[], 0, 0, 0, none⟩).content

def c7Ov : Str := getOverlapText c7Prev 5

end TextChunker

open TextChunker in
/-- C1 (amended): every chunk produced by `chunk_text` has content of length
at most `size`, or consists of exactly one unsplit sentence, or consists of
overlap text of length at most `overlap` followed by a single space and one
unsplit sentence; in the last case the bound `size` can be exceeded. -/
theorem claim_C1_chunk_size_amended (size overlap : Nat) (text : Str) (title : Option Str) :
    ∀ c ∈ chunkText size overlap text title,
      c.content.length ≤ size ∨
      (∃ s ∈ splitSentences (cleanText text), c.content = s.content) ∨
      (∃ s ∈ splitSentences (cleanText text), ∃ ovt : Str,
        ovt.length ≤ overlap ∧ c.content = ovt ++ ' ' :: s.content) := by
  intro c hc
  unfold chunkText at hc
  split at hc
  · cases hc
  · obtain ⟨rc, hrc, heq⟩ := attachIndices_content _ _ _ _ hc
    rw [heq]
    exact mergeSentencesToChunks_inv size overlap _ rc hrc

open TextChunker in
theorem claim_C1_chunk_size_amended_witness :
    c1Bad ∈ chunkText 10 5 c1Text none ∧
    (c1Bad.content.length ≤ 10 ∨
      (∃ s ∈ splitSentences (cleanText c1Text), c1Bad.content = s.content) ∨
      (∃ s ∈ splitSentences (cleanText c1Text), ∃ ovt : Str,
        ovt.length ≤ 5 ∧ c1Bad.content = ovt ++ ' ' :: s.content)) :=
  ⟨by decide, claim_C1_chunk_size_amended 10 5 c1Text none c1Bad (by decide)⟩

open TextChunker in
/-- C1 counterexample: for the text `"Aaaa aaaa. Bbbb bbbb."` with
`maxSize = 10` and `overlap = 5`, the chunker returns a chunk of length 16,
strictly above `maxSize`, whose content is not any single sentence of the
split — it is overlap text plus the overflowing sentence, not trimmed to the
bound. -/
theorem claim_C1_counterexample :
    c1Bad ∈ chunkText 10 5 c1Text none ∧
    c1Bad.content.length = 16 ∧
    ¬ c1Bad.content.length ≤ 10 ∧
    ∀ s ∈ splitSentences (cleanText c1Text), c1Bad.content ≠ s.content := by
  decide

open TextChunker in
/-- C7 (amended): the overlap text of `_get_overlap_text` is a suffix of the
previous chunk's content of length at most `overlap`; it begins at a word
boundary (start of the content, or right after a space) whenever the content
contains a space at or after position `length - overlap`; with no space
there, the raw final `overlap` characters are taken, possibly mid-word. -/
theorem claim_C7_overlap_amended (t : Str) (n : Nat) :
    (getOverlapText t n).length ≤ n ∧
    (∃ k, getOverlapText t n = t.drop k) ∧
    ((∃ j, t.length - n ≤ j ∧ j < t.length ∧ t[j]? = some ' ') →
      wordAlignedB t (getOverlapText t n) = true) :=
  ⟨getOverlapText_length_le t n, getOverlapText_is_drop t n,
    getOverlapText_aligned t n⟩

open TextChunker in
theorem claim_C7_overlap_amended_witness :
    (getOverlapText ("ab cd".data) 3).length ≤ 3 ∧
    (∃ k, getOverlapText ("ab cd".data) 3 = ("ab cd".data).drop k) ∧
    wordAlignedB ("ab cd".data) (getOverlapText ("ab cd".data) 3) = true :=
  ⟨(claim_C7_overlap_amended ("ab cd".data) 3).1,
   (claim_C7_overlap_amended ("ab cd".data) 3).2.1,
   (claim_C7_overlap_amended ("ab cd".data) 3).2.2 ⟨2, by decide, by decide, by decide⟩⟩

open TextChunker in
/-- C7 counterexample: chunking `"Aaaaaaaaa. Bbbb bbbb."` with size 10 and
overlap 5 produces a second chunk seeded with overlap text `"aaaa."`, which
does not begin at a word boundary of the previous chunk `"Aaaaaaaaa."` (its
tail holds no space, and the raw 5-character fallback starts mid-word). -/
theorem claim_C7_counterexample :
    (c7Chunks.getD 1 ⟨[], 0, 0, 0, none⟩).content = c7Ov ++ ' ' :: ("Bbbb bbbb.".data) ∧
    c7Ov.length ≤ 5 ∧
    wordAlignedB c7Prev c7Ov = false := by
  decide

namespace StatuteParser

/-- `enums/section_type.py` `SectionType`, member for member.  There is no
`TABLE` member: the table branch of `_extract_body_parts` nevertheless
accesses `SectionType.TABLE`, which raises `AttributeError` at run time
(modelled below as an error outcome of the extraction). -/
inductive SectionType where
  | preamble
  | enactingClause
  | title
  | article
  | sectionKind
  | paragraph
  | subsection
  | syllabus
  | facts
  | issues
  | ruling
  | dispositive
  | concurring
  | dissenting
  | body
  | footnote
  | annex
deriving DecidableEq, Repr

/-- A Python exception escaping the parser. -/
inductive PyError where
  | attributeError (msg : Str)
deriving DecidableEq, Repr

/-- `schemas/scraped_part.py` `ScrapedPart`. -/
inductive ScrapedPart where
  | mk (section_type : SectionType) (label : Option Str) (content_text : Str)
      (content_markdown : Str) (content_html : Option Str) (sort_order : Nat)
      (children : List ScrapedPart)

/-- Sort order field of a part. -/
def ScrapedPart.sortOrder : ScrapedPart → Nat
  | .mk _ _ _ _ _ so _ => so

/-- Children of a part. -/
def ScrapedPart.childParts : ScrapedPart → List ScrapedPart
  | .mk _ _ _ _ _ _ ch => ch

/-- `part.children.append(q)`. -/
def appendChild : ScrapedPart → ScrapedPart → ScrapedPart
  | .mk ty lb t m h so ch, q => .mk ty lb t m h so (ch ++ [q])

mutual

/-- Sort orders of a part tree in pre-order. -/
def sortOrders : ScrapedPart → List Nat
  | .mk _ _ _ _ _ so ch => so :: sortOrdersList ch

/-- Sort orders of a forest in pre-order. -/
def sortOrdersList : List ScrapedPart → List Nat
  | [] => []
  | p :: ps => sortOrders p ++ sortOrdersList ps

end

/-- One block-level element of the page body, pre-classified exactly as the
loop in `_extract_body_parts` classifies it: boilerplate, a `<table>`, an
element with empty text, an article header (regex groups 2 and 3, the latter
stripped), a section header, or plain content (with the result of
`_is_header_content` recorded). -/
inductive BodyElem where
  | boilerplate
  | table (text md html : Str)
  | blank
  | articleHeader (num rest : Str)
  | sectionHeader (num rest : Str)
  | content (text md : Str) (isHeaderText : Bool)

/-- The local state of the `_extract_body_parts` loop. -/
structure BodyState where
  counter : Nat
  parts : List ScrapedPart
  curArt : Option ScrapedPart
  curSec : Option ScrapedPart
  buf : List (Str × Str)
  passedHeader : Bool

/-- Attach a freshly created part to the innermost open container:
current section, else current article, else the document root. -/
def attachPart (st : BodyState) (p : ScrapedPart) : BodyState :=
  match st.curSec with
  | some sec => { st with curSec := some (appendChild sec p) }
  | none =>
    match st.curArt with
    | some art => { st with curArt := some (appendChild art p) }
    | none => { st with parts := st.parts ++ [p] }

/-- `'\n'.join` of the text parts and `'\n\n'.join` of the markdown parts. -/
def joinSep (sep : Str) : List Str → Str
  | [] => []
  | [x] => x
  | x :: xs => x ++ sep ++ joinSep sep xs

/-- `LawphilStatuteParser._flush_content`: turn the accumulated loose text
into a paragraph part (with the next sort order) attached to the innermost
open container; no-op when the buffer is empty. -/
def flushContent (st : BodyState) : BodyState :=
  if st.buf.isEmpty then st
  else
    let text := joinSep ['\n'] (st.buf.map (·.1))
    let md := joinSep ['\n', '\n'] (st.buf.map (·.2))
    let para := ScrapedPart.mk .paragraph none text md none (st.counter + 1) []
    attachPart { st with counter := st.counter + 1 } para

/-- Close the current section into the current article, or to the root when
no article is open (the section-header branch and the loop epilogue). -/
def closeSection (st : BodyState) : BodyState :=
  match st.curSec with
  | none => st
  | some sec =>
    match st.curArt with
    | some art => { st with curArt := some (appendChild art sec), curSec := none }
    | none => { st with parts := st.parts ++ [sec], curSec := none }

/-- The article-header branch closes the section only when an article is also
open; a section open at the root is simply discarded (the branch later
overwrites `current_section` with `None`). -/
def closeSectionIntoArticle (st : BodyState) : BodyState :=
  match st.curSec, st.curArt with
  | some sec, some art => { st with curArt := some (appendChild art sec), curSec := none }
  | _, _ => st

/-- Emit the current article to the root part list. -/
def closeArticle (st : BodyState) : BodyState :=
  match st.curArt with
  | some art => { st with parts := st.parts ++ [art], curArt := none }
  | none => st

/-- The article-header branch: flush, close the open section into the open
article (a rootless open section is dropped), emit the article, open a new
one. -/
def openArticle (st : BodyState) (num rest : Str) : BodyState :=
  let st := closeArticle (closeSectionIntoArticle { flushContent st with buf := [] })
  let art := ScrapedPart.mk .article (some ("Article ".data ++ num)) rest rest none
    (st.counter + 1) []
  { st with
      counter := st.counter + 1, curArt := some art, curSec := none,
      passedHeader := true }

/-- The section-header branch: flush, close the open section, open a new one
(nested in the current article when present). -/
def openSection (st : BodyState) (num rest : Str) : BodyState :=
  let st := closeSection { flushContent st with buf := [] }
  let sec := ScrapedPart.mk .sectionKind (some ("Section ".data ++ num)) rest rest none
    (st.counter + 1) []
  { st with counter := st.counter + 1, curSec := some sec, passedHeader := true }

/-- The loop body of `LawphilStatuteParser._extract_body_parts`.  The table
branch first flushes the loose content, then evaluates
`ScrapedPart(section_type=SectionType.TABLE, ...)` — and `SectionType.TABLE`
does not exist, so `AttributeError("TABLE")` is raised and propagates out of
`parse`; the preceding flush is unobservable since the whole call aborts, so
the branch is modelled as the error outcome directly. -/
def bodyStep (st : BodyState) (e : BodyElem) : Except PyError BodyState :=
  match e with
  | .boilerplate => .ok st
  | .blank => .ok st
  | .table _ _ _ => .error (.attributeError "TABLE".data)
  | .articleHeader num rest => .ok (openArticle st num rest)
  | .sectionHeader num rest => .ok (openSection st num rest)
  | .content text md isHeaderText =>
    .ok (if !st.passedHeader && isHeaderText then st
      else { st with buf := st.buf ++ [(text, md)] })

/-- One iteration of the element loop at the `Except` level: a raised
exception short-circuits the remaining elements. -/
def bodyStepE (acc : Except PyError BodyState) (e : BodyElem) :
    Except PyError BodyState :=
  match acc with
  | .error err => .error err
  | .ok st => bodyStep st e

/-- Emit the remaining open containers at the end of the loop: the parts so
far, then the open article (the open section having been closed already). -/
def finishBodyCore (st : BodyState) : List ScrapedPart :=
  match st.curArt with
  | some art => st.parts ++ [art]
  | none => st.parts

/-- The epilogue of `_extract_body_parts`: flush remaining content, close the
open section, then the open article. -/
def finishBody (st : BodyState) : List ScrapedPart :=
  finishBodyCore (closeSection { flushContent st with buf := [] })

/-- `LawphilStatuteParser._extract_body_parts` over the classified elements,
starting from the reset sort counter: the built part forest, or the
`AttributeError` escaping the table branch. -/
def extractBodyParts (elems : List BodyElem) : Except PyError (List ScrapedPart) :=
  match elems.foldl bodyStepE (.ok ⟨0, [], none, none, [], false⟩) with
  | .error err => .error err
  | .ok st => .ok (finishBody st)

/-- Pre-order sort orders of an optional open container. -/
def optFlat : Option ScrapedPart → List Nat
  | none => []
  | some p => sortOrders p

/-- Pre-order sort orders of the whole state: emitted roots, then the open
article, then the open section. -/
def stateFlat (st : BodyState) : List Nat :=
  sortOrdersList st.parts ++ optFlat st.curArt ++ optFlat st.curSec

/-- The loop invariant: the pre-order sort list is strictly increasing and
bounded by the counter. -/
def InvFlat (L : List Nat) (c : Nat) : Prop :=
  List.Pairwise (· < ·) L ∧ ∀ x ∈ L, x ≤ c

/-- The state invariant of `_extract_body_parts`. -/
def Inv (st : BodyState) : Prop := InvFlat (stateFlat st) st.counter

theorem sortOrdersList_append (l₁ l₂ : List ScrapedPart) :
    sortOrdersList (l₁ ++ l₂) = sortOrdersList l₁ ++ sortOrdersList l₂ := by
  induction l₁ with
  | nil => simp [sortOrdersList]
  | cons p ps ih => simp [sortOrdersList, ih, List.append_assoc]

theorem sortOrders_appendChild (p q : ScrapedPart) :
    sortOrders (appendChild p q) = sortOrders p ++ sortOrders q := by
  cases p with
  | mk ty lb t m h so ch =>
    simp [appendChild, sortOrders, sortOrdersList_append, sortOrdersList]

theorem invFlat_append_fresh {L : List Nat} {c : Nat} (h : InvFlat L c) :
    InvFlat (L ++ [c + 1]) (c + 1) := by
  obtain ⟨hp, hb⟩ := h
  constructor
  · rw [List.pairwise_append]
    refine ⟨hp, List.pairwise_singleton _ _, ?_⟩
    intro a ha b hb'
    rw [List.mem_singleton] at hb'
    subst hb'
    exact Nat.lt_succ_of_le (hb a ha)
  · intro x hx
    rcases List.mem_append.mp hx with hx | hx
    · exact Nat.le_succ_of_le (hb x hx)
    · rw [List.mem_singleton] at hx; omega

theorem invFlat_sublist {L' L : List Nat} {c : Nat} (hs : L'.Sublist L)
    (h : InvFlat L c) : InvFlat L' c :=
  ⟨h.1.sublist hs, fun x hx => h.2 x (hs.subset hx)⟩

theorem stateFlat_attachPart (st : BodyState) (p : ScrapedPart) :
    stateFlat (attachPart st p) = stateFlat st ++ sortOrders p := by
  unfold attachPart stateFlat
  rcases st with ⟨c, parts, art, sec, buf, ph⟩
  cases sec with
  | some s => simp [optFlat, sortOrders_appendChild, List.append_assoc]
  | none =>
    cases art with
    | some a => simp [optFlat, sortOrders_appendChild, List.append_assoc]
    | none => simp [optFlat, sortOrdersList_append, sortOrdersList]

theorem stateFlat_closeSection (st : BodyState) :
    stateFlat (closeSection st) = stateFlat st := by
  unfold closeSection stateFlat
  rcases st with ⟨c, parts, art, sec, buf, ph⟩
  cases sec with
  | none => rfl
  | some s =>
    cases art with
    | some a => simp [optFlat, sortOrders_appendChild, List.append_assoc]
    | none => simp [optFlat, sortOrdersList_append, sortOrdersList, List.append_assoc]

theorem stateFlat_closeSectionIntoArticle (st : BodyState) :
    stateFlat (closeSectionIntoArticle st) = stateFlat st := by
  unfold closeSectionIntoArticle stateFlat
  rcases st with ⟨c, parts, art, sec, buf, ph⟩
  cases sec with
  | none => cases art <;> rfl
  | some s =>
    cases art with
    | some a => simp [optFlat, sortOrders_appendChild, List.append_assoc]
    | none => rfl

theorem stateFlat_closeArticle (st : BodyState) :
    stateFlat (closeArticle st) = stateFlat st := by
  unfold closeArticle stateFlat
  rcases st with ⟨c, parts, art, sec, buf, ph⟩
  cases art with
  | none => rfl
  | some a => simp [optFlat, sortOrdersList_append, sortOrdersList, List.append_assoc]

theorem closeSection_curSec (st : BodyState) : (closeSection st).curSec = none := by
  unfold closeSection
  rcases st with ⟨c, parts, art, sec, buf, ph⟩
  cases sec with
  | none => rfl
  | some s => cases art <;> rfl

theorem closeArticle_curArt (st : BodyState) : (closeArticle st).curArt = none := by
  unfold closeArticle
  rcases st with ⟨c, parts, art, sec, buf, ph⟩
  cases art <;> rfl

theorem attachPart_counter (st : BodyState) (p : ScrapedPart) :
    (attachPart st p).counter = st.counter := by
  unfold attachPart
  rcases st with ⟨c, parts, art, sec, buf, ph⟩
  cases sec with
  | some s => rfl
  | none => cases art <;> rfl

theorem closeSection_counter (st : BodyState) :
    (closeSection st).counter = st.counter := by
  unfold closeSection
  rcases st with ⟨c, parts, art, sec, buf, ph⟩
  cases sec with
  | none => rfl
  | some s => cases art <;> rfl

theorem closeSectionIntoArticle_counter (st : BodyState) :
    (closeSectionIntoArticle st).counter = st.counter := by
  unfold closeSectionIntoArticle
  rcases st with ⟨c, parts, art, sec, buf, ph⟩
  cases sec with
  | none => cases art <;> rfl
  | some s => cases art <;> rfl

theorem inv_attach_fresh {st : BodyState} (h : Inv st) (ty : SectionType)
    (lb : Option Str) (t m : Str) (hh : Option Str) :
    Inv (attachPart { st with counter := st.counter + 1 }
      (ScrapedPart.mk ty lb t m hh (st.counter + 1) [])) := by
  unfold Inv
  rw [stateFlat_attachPart, attachPart_counter]
  have hso : sortOrders (ScrapedPart.mk ty lb t m hh (st.counter + 1) [])
      = [st.counter + 1] := by
    simp [sortOrders, sortOrdersList]
  have hsf : stateFlat { st with counter := st.counter + 1 } = stateFlat st := rfl
  have hc : ({ st with counter := st.counter + 1 } : BodyState).counter
      = st.counter + 1 := rfl
  rw [hso, hsf, hc]
  exact invFlat_append_fresh h

theorem closeArticle_counter (st : BodyState) :
    (closeArticle st).counter = st.counter := by
  unfold closeArticle
  rcases st with ⟨c, parts, art, sec, buf, ph⟩
  cases art <;> rfl

theorem inv_flushContent {st : BodyState} (h : Inv st) : Inv (flushContent st) := by
  unfold flushContent
  split
  · exact h
  · exact inv_attach_fresh h _ _ _ _ _

theorem inv_buf_clear {st : BodyState} (h : Inv st) : Inv { st with buf := [] } := h

theorem inv_closedForArticle {st : BodyState} (h : Inv st) :
    Inv (closeArticle (closeSectionIntoArticle { flushContent st with buf := [] })) := by
  unfold Inv
  rw [stateFlat_closeArticle, stateFlat_closeSectionIntoArticle,
    closeArticle_counter, closeSectionIntoArticle_counter]
  exact inv_buf_clear (inv_flushContent h)

theorem inv_closedForSection {st : BodyState} (h : Inv st) :
    Inv (closeSection { flushContent st with buf := [] }) := by
  unfold Inv
  rw [stateFlat_closeSection, closeSection_counter]
  exact inv_buf_clear (inv_flushContent h)

theorem inv_openArticleCore (st2 : BodyState) (h : Inv st2) (hart : st2.curArt = none)
    (num rest : Str) :
    Inv { st2 with
        counter := st2.counter + 1,
        curArt := some (ScrapedPart.mk .article (some ("Article ".data ++ num)) rest rest none
          (st2.counter + 1) []),
        curSec := none, passedHeader := true } := by
  unfold Inv
  have hsf : stateFlat { st2 with
      counter := st2.counter + 1,
      curArt := some (ScrapedPart.mk .article (some ("Article ".data ++ num)) rest rest none
        (st2.counter + 1) []),
      curSec := none, passedHeader := true }
      = sortOrdersList st2.parts ++ [st2.counter + 1] := by
    unfold stateFlat
    simp [optFlat, sortOrders, sortOrdersList]
  rw [hsf]
  have hsub : (sortOrdersList st2.parts).Sublist (stateFlat st2) := by
    unfold stateFlat
    rw [List.append_assoc]
    exact List.sublist_append_left _ _
  exact invFlat_append_fresh (invFlat_sublist hsub h)

theorem inv_openArticle {st : BodyState} (h : Inv st) (num rest : Str) :
    Inv (openArticle st num rest) :=
  inv_openArticleCore _ (inv_closedForArticle h) (closeArticle_curArt _) num rest

theorem inv_openSectionCore (st2 : BodyState) (h : Inv st2) (hsec : st2.curSec = none)
    (num rest : Str) :
    Inv { st2 with
        counter := st2.counter + 1,
        curSec := some (ScrapedPart.mk .sectionKind (some ("Section ".data ++ num)) rest rest none
          (st2.counter + 1) []),
        passedHeader := true } := by
  unfold Inv
  have hsf : stateFlat { st2 with
      counter := st2.counter + 1,
      curSec := some (ScrapedPart.mk .sectionKind (some ("Section ".data ++ num)) rest rest none
        (st2.counter + 1) []),
      passedHeader := true }
      = stateFlat st2 ++ [st2.counter + 1] := by
    unfold stateFlat
    rw [hsec]
    simp [optFlat, sortOrders, sortOrdersList]
  rw [hsf]
  exact invFlat_append_fresh h

theorem inv_openSection {st : BodyState} (h : Inv st) (num rest : Str) :
    Inv (openSection st num rest) :=
  inv_openSectionCore _ (inv_closedForSection h) (closeSection_curSec _) num rest

/-- The invariant lifted to the `Except` level: whatever state the loop still
holds satisfies `Inv`. -/
def InvE (acc : Except PyError BodyState) : Prop :=
  ∀ st, acc = .ok st → Inv st

theorem inv_bodyStep {st : BodyState} (e : BodyElem) (h : Inv st) :
    InvE (bodyStep st e) := by
  cases e with
  | boilerplate => intro st2 h2; cases h2; exact h
  | blank => intro st2 h2; cases h2; exact h
  | content text md ihdr =>
    intro st2 h2
    cases h2
    split
    · exact h
    · exact h
  | table text md html => intro st2 h2; cases h2
  | articleHeader num rest =>
    intro st2 h2
    cases h2
    exact inv_openArticle h num rest
  | sectionHeader num rest =>
    intro st2 h2
    cases h2
    exact inv_openSection h num rest

theorem inv_extract (elems : List BodyElem) :
    InvE (elems.foldl bodyStepE (.ok ⟨0, [], none, none, [], false⟩)) := by
  refine List.foldlRecOn elems bodyStepE _ ?_ ?_
  · intro st hst
    cases hst
    constructor
    · simp [stateFlat, sortOrdersList, optFlat]
    · intro x hx
      simp [stateFlat, sortOrdersList, optFlat] at hx
  · intro b hb a _
    cases b with
    | error err => intro st hst; cases hst
    | ok st => exact inv_bodyStep a (hb st rfl)

theorem finishBodyCore_pairwise {st2 : BodyState} (h : Inv st2)
    (hsec : st2.curSec = none) :
    List.Pairwise (· < ·) (sortOrdersList (finishBodyCore st2)) := by
  unfold finishBodyCore
  cases hart : st2.curArt with
  | none =>
    have he : stateFlat st2 = sortOrdersList st2.parts := by
      unfold stateFlat
      rw [hart, hsec]
      simp [optFlat]
    have hp := h.1
    rw [he] at hp
    exact hp
  | some art =>
    have he : stateFlat st2 = sortOrdersList (st2.parts ++ [art]) := by
      unfold stateFlat
      rw [hart, hsec]
      simp [optFlat, sortOrdersList_append, sortOrdersList]
    have hp := h.1
    rw [he] at hp
    exact hp

theorem extractBodyParts_pairwise (elems : List BodyElem) :
    ∀ parts, extractBodyParts elems = .ok parts →
      List.Pairwise (· < ·) (sortOrdersList parts) := by
  intro parts h
  unfold extractBodyParts at h
  split at h
  · cases h
  · rename_i st hst
    cases h
    unfold finishBody
    exact finishBodyCore_pairwise (inv_closedForSection (inv_extract elems st hst))
      (closeSection_curSec _)

/-- `enums/document_type.py` `DocumentType`. -/
inductive DocumentType where
  | constitution
  | republicAct
  | batasPambansa
  | commonwealthAct
  | act
  | presidentialDecree
  | executiveOrder
  | administrativeOrder
  | memorandumOrder
  | memorandumCircular
  | proclamation
  | generalOrder
  | specialOrder
  | letterOfImplementation
  | letterOfInstruction
  | decision
  | resolutionKind
  | rulesOfCourt
deriving DecidableEq, Repr

/-- `schemas/statute_pattern.py` `StatutePattern`.  Patterns are carried as
their regex source strings; the `re` module itself is external, so matching
is a parameter (`search` below) returning the matched group 2. -/
structure StatutePattern where
  document_type : DocumentType
  display_name : Str
  abbreviation : Str
  patterns : List Str
  url_indicators : List Str
  title_prefixes : List Str
  date_fields : List Str

/-- The `DocumentType.REPUBLIC_ACT` entry of `STATUTE_PATTERNS`
(`scrapers/lawphil/constants.py`). -/
def republicActPattern : StatutePattern where
  document_type := .republicAct
  display_name := "Republic Act".data
  abbreviation := "R.A.".data
  patterns :=
    ["\\[?\\s*(REPUBLIC\\s+ACT\\s+NO\\.?\\s*(\\d+))\\s*\\]?".data,
     "(Republic\\s+Act\\s+No\\.?\\s*(\\d+))".data,
     "(R\\.?\\s*A\\.?\\s*(?:No\\.?)?\\s*(\\d+))".data]
  url_indicators := ["repact".data, "ra_".data, "republic_act".data, "/ra/".data]
  title_prefixes := ["AN ACT".data]
  date_fields := ["approved".data, "effectivity".data]

/-- The `DocumentType.PRESIDENTIAL_DECREE` entry of `STATUTE_PATTERNS`. -/
def presidentialDecreePattern : StatutePattern where
  document_type := .presidentialDecree
  display_name := "Presidential Decree".data
  abbreviation := "P.D.".data
  patterns :=
    ["\\[?\\s*(PRESIDENTIAL\\s+DECREE\\s+NO\\.?\\s*(\\d+))\\s*\\]?".data,
     "(Presidential\\s+Decree\\s+No\\.?\\s*(\\d+))".data,
     "(P\\.?\\s*D\\.?\\s*(?:No\\.?)?\\s*(\\d+))".data]
  url_indicators := ["presdec".data, "pd_".data, "presidential_decree".data, "/pd/".data]
  title_prefixes :=
    ["DECREEING".data, "DECLARING".data, "PROVIDING".data, "ESTABLISHING".data,
     "CREATING".data, "ORDAINING".data]
  date_fields := ["promulgated".data, "effectivity".data]

/-- `STATUTE_PATTERNS.get`.  Only the two entries whose Python construction is
valid are modelled: every other entry of the source table passes the unknown
keyword `statute_type` to the `StatutePattern` dataclass (whose field is
`document_type`), so those constructions raise `TypeError`. -/
def statutePatternsTable : DocumentType → Option StatutePattern
  | .republicAct => some republicActPattern
  | .presidentialDecree => some presidentialDecreePattern
  | _ => none

/-- The pattern loops of `_extract_info`: try the patterns in order, first
match wins; `search p text` is the abstract `re.search(p, text, IGNORECASE)`
returning `match.group(2)`. -/
def firstPatternMatch (search : Str → Str → Option Str) :
    List Str → Str → Option Str
  | [], _ => none
  | p :: rest, text =>
    match search p text with
    | some n => some n
    | none => firstPatternMatch search rest text

/-- `LawphilStatuteParser._extract_info`: try the page title first, then the
first 2000 characters of the body text; interpolate the matched number into
`"<display_name> No. <n>"`. -/
def extractInfo (search : Str → Str → Option Str) (cfg : StatutePattern)
    (titleTag : Option Str) (fullText : Str) : Option Str :=
  match
    (match titleTag with
     | some t => firstPatternMatch search cfg.patterns t
     | none => none) with
  | some n => some (cfg.display_name ++ " No. ".data ++ n)
  | none =>
    match firstPatternMatch search cfg.patterns (fullText.take 2000) with
    | some n => some (cfg.display_name ++ " No. ".data ++ n)
    | none => none

/-- `schemas/scraped_document.py` `ScrapedDocument`, restricted to the fields
the claims concern. -/
structure ScrapedDocument where
  canonical_citation : Str
  title : Str
  parts : List ScrapedPart

/-- `LawphilStatuteParser.parse`.  Inputs beyond the raw markup appear in the
classified form the parser derives from it: `titleTag` is the text of the
`<title>` element when present, `fullText` is `soup.get_text()`, `elems` the
classified block elements, and `titleExtract` the result of the
`_extract_title` heuristic (kept opaque — no claim concerns it).  Returns
`.ok none` when the document type has no pattern configuration or no
citation is found (before any body extraction), and propagates the
`AttributeError` raised by `_extract_body_parts` on a table element. -/
def parseStatute (search : Str → Str → Option Str) (docType : DocumentType)
    (titleTag : Option Str) (fullText : Str) (titleExtract : Option Str)
    (elems : List BodyElem) : Except PyError (Option ScrapedDocument) :=
  match statutePatternsTable docType with
  | none => .ok none
  | some cfg =>
    match extractInfo search cfg titleTag fullText with
    | none => .ok none
    | some citation =>
      match extractBodyParts elems with
      | .error err => .error err
      | .ok parts =>
        .ok (some { canonical_citation := citation
                    title :=
                      match titleExtract with
                      | some t => if t.isEmpty then citation else t
                      | none => citation
                    parts := parts })

/-- An ordered-pattern-list "first match wins" outcome, stated independently
of the embedded loop: some pattern at index `i` matches with group 2 equal to
`n`, and every earlier pattern fails. -/
def FirstMatchSpec (search : Str → Str → Option Str) (pats : List Str)
    (text : Str) (n : Str) : Prop :=
  ∃ i p, pats.get? i = some p ∧ search p text = some n ∧
    ∀ j q, j < i → pats.get? j = some q → search q text = none

theorem firstPatternMatch_of_spec (search : Str → Str → Option Str) :
    ∀ (pats : List Str) (text n : Str), FirstMatchSpec search pats text n →
      firstPatternMatch search pats text = some n := by
  intro pats
  induction pats with
  | nil =>
    intro text n h
    obtain ⟨i, p, hp, -, -⟩ := h
    simp at hp
  | cons p0 rest ih =>
    intro text n h
    obtain ⟨i, p, hp, hmatch, hbefore⟩ := h
    cases i with
    | zero =>
      rw [List.get?_cons_zero] at hp
      cases hp
      unfold firstPatternMatch
      rw [hmatch]
    | succ j =>
      have h0 : search p0 text = none :=
        hbefore 0 p0 (Nat.succ_pos j) (List.get?_cons_zero)
      unfold firstPatternMatch
      rw [h0]
      refine ih text n ⟨j, p, ?_, hmatch, ?_⟩
      · rw [List.get?_cons_succ] at hp
        exact hp
      · intro k q hk hq
        exact hbefore (k + 1) q (Nat.succ_lt_succ hk) (by rw [List.get?_cons_succ]; exact hq)

theorem firstPatternMatch_none (search : Str → Str → Option Str) :
    ∀ (pats : List Str) (text : Str), (∀ p ∈ pats, search p text = none) →
      firstPatternMatch search pats text = none := by
  intro pats
  induction pats with
  | nil => intro text _; rfl
  | cons p0 rest ih =>
    intro text h
    unfold firstPatternMatch
    rw [h p0 (List.mem_cons_self _ _)]
    exact ih text fun p hp => h p (List.mem_cons_of_mem _ hp)

end StatuteParser

open StatuteParser in
/-- C2: for every document returned by `parse`, the sort orders of its parts
are strictly increasing along the pre-order traversal of the part tree, and
in particular no sort order repeats. -/
theorem claim_C2_sort_order_strictly_increasing
    (search : Str → Str → Option Str) (docType : DocumentType)
    (titleTag : Option Str) (fullText : Str) (titleExtract : Option Str)
    (elems : List BodyElem) (doc : ScrapedDocument)
    (h : parseStatute search docType titleTag fullText titleExtract elems
      = .ok (some doc)) :
    List.Pairwise (· < ·) (sortOrdersList doc.parts) ∧
      (sortOrdersList doc.parts).Nodup := by
  unfold parseStatute at h
  split at h
  · cases h
  · split at h
    · cases h
    · split at h
      · cases h
      · rename_i parts hparts
        cases h
        exact ⟨extractBodyParts_pairwise elems parts hparts,
          (extractBodyParts_pairwise elems parts hparts).imp fun hab => Nat.ne_of_lt hab⟩

open StatuteParser in
theorem claim_C2_sort_order_strictly_increasing_witness :
    List.Pairwise (· < ·) (sortOrdersList (ScrapedDocument.mk
      ("Republic Act".data ++ " No. ".data ++ ['5'])
      ("Republic Act".data ++ " No. ".data ++ ['5'])
      [ScrapedPart.mk .sectionKind (some ("Section ".data ++ ['1'])) ['S'] ['S'] none 1
        [ScrapedPart.mk .paragraph none ['x'] ['x'] none 2 []]]).parts) ∧
    (sortOrdersList (ScrapedDocument.mk
      ("Republic Act".data ++ " No. ".data ++ ['5'])
      ("Republic Act".data ++ " No. ".data ++ ['5'])
      [ScrapedPart.mk .sectionKind (some ("Section ".data ++ ['1'])) ['S'] ['S'] none 1
        [ScrapedPart.mk .paragraph none ['x'] ['x'] none 2 []]]).parts).Nodup :=
  claim_C2_sort_order_strictly_increasing (fun _ _ => some ['5']) .republicAct
    (some ['t']) [] none [.sectionHeader ['1'] ['S'], .content ['x'] ['x'] false] _ rfl

open StatuteParser in
/-- C4: when no configured citation pattern of the document type matches the
page title or the first 2000 characters of the body text, `parse` returns
`None` without raising: the result is `.ok none` for every element list,
since the body extractor — the only raising code path — is never reached. -/
theorem claim_C4_parse_none_without_citation
    (search : Str → Str → Option Str) (docType : DocumentType)
    (cfg : StatutePattern) (titleTag : Option Str) (fullText : Str)
    (titleExtract : Option Str) (elems : List BodyElem)
    (hcfg : statutePatternsTable docType = some cfg)
    (htitle : ∀ p ∈ cfg.patterns, ∀ t, titleTag = some t → search p t = none)
    (hbody : ∀ p ∈ cfg.patterns, search p (fullText.take 2000) = none) :
    parseStatute search docType titleTag fullText titleExtract elems = .ok none := by
  unfold parseStatute
  rw [hcfg]
  have hinfo : extractInfo search cfg titleTag fullText = none := by
    unfold extractInfo
    have ht : (match titleTag with
        | some t => firstPatternMatch search cfg.patterns t
        | none => none) = none := by
      cases htt : titleTag with
      | none => rfl
      | some t =>
        exact firstPatternMatch_none search cfg.patterns t
          fun p hp => htitle p hp t htt
    rw [ht, firstPatternMatch_none search cfg.patterns _ hbody]
  simp only [hinfo]

open StatuteParser in
theorem claim_C4_parse_none_without_citation_witness :
    parseStatute (fun _ _ => none) .republicAct (some ['t']) ['b'] none [] = .ok none :=
  claim_C4_parse_none_without_citation (fun _ _ => none) .republicAct
    republicActPattern (some ['t']) ['b'] none [] rfl
    (fun _ _ _ _ => rfl) (fun _ _ => rfl)

open StatuteParser in
/-- C5 (code bug): markup whose page title matches the first Republic Act
pattern (number 5) and whose body holds one non-boilerplate table element
makes `parse` raise `AttributeError("TABLE")` — the table branch of
`_extract_body_parts` accesses `SectionType.TABLE`, a member
`enums/section_type.py` does not define — instead of returning the document
with canonical citation "Republic Act No. 5" that the claim (and the spec,
whose data model lists `table` among the section kinds) promises.  The
second conjunct shows the citation is recognized at this input, and the
third that on the same markup without the table the promised document is
returned. -/
theorem claim_C5_citation_table_attribute_error :
    parseStatute (fun _ _ => some ['5']) .republicAct (some ['t']) [] none
      [BodyElem.table ['x'] ['x'] ['h']]
      = .error (.attributeError "TABLE".data) ∧
    extractInfo (fun _ _ => some ['5']) republicActPattern (some ['t']) []
      = some ("Republic Act No. 5".data) ∧
    parseStatute (fun _ _ => some ['5']) .republicAct (some ['t']) [] none []
      = .ok (some (ScrapedDocument.mk ("Republic Act No. 5".data)
          ("Republic Act No. 5".data) [])) :=
  ⟨rfl, rfl, rfl⟩

namespace VectorRepo

/-- `models/vector.py` `DocumentVector` as stored in `document_vectors`.
Scores and embedding entries live in an arbitrary linearly ordered type `α`
with `1` and subtraction: the database computes them in floating point, which
the embedding abstracts. -/
structure StoredVector (α : Type) where
  id : Nat
  document_id : Nat
  chunk_index : Nat
  content : Str
  section_title : Option Str
  embedding : List α
deriving DecidableEq

/-- One result dict of `search_similar`. -/
structure RankedChunk (α : Type) where
  id : Nat
  document_id : Nat
  chunk_index : Nat
  content : Str
  section_title : Option Str
  similarity : α
deriving DecidableEq

/-- `1 - vector_distance_cos(embedding, vector(:query_embedding))`; the
cosine distance itself is computed by the libsql engine, hence the parameter
`dist`. -/
def rowSimilarity {α : Type} [One α] [Sub α] (dist : List α → List α → α)
    (q : List α) (v : StoredVector α) : α :=
  1 - dist q v.embedding

/-- The `WHERE document_id = :doc_id` conjunct (absent when no filter). -/
def matchesFilter {α : Type} (docFilter : Option Nat) (v : StoredVector α) : Bool :=
  match docFilter with
  | some d => v.document_id == d
  | none => true

/-- Insertion into a list sorted by non-increasing similarity. -/
def insertDesc {α : Type} [LinearOrder α] (r : RankedChunk α) :
    List (RankedChunk α) → List (RankedChunk α)
  | [] => [r]
  | x :: xs =>
    if x.similarity ≤ r.similarity then r :: x :: xs else x :: insertDesc r xs

/-- `ORDER BY similarity DESC` over the filtered rows. -/
def sortDesc {α : Type} [LinearOrder α] : List (RankedChunk α) → List (RankedChunk α)
  | [] => []
  | x :: xs => insertDesc x (sortDesc xs)

/-- Declarative semantics of the raw SQL run by
`VectorRepository.search_similar`: keep the rows passing the document filter
and the threshold on `1 - vector_distance_cos`, order by similarity
descending, and apply `LIMIT`. -/
def searchSimilar {α : Type} [LinearOrder α] [One α] [Sub α]
    (dist : List α → List α → α) (table : List (StoredVector α)) (q : List α)
    (lim : Nat) (threshold : α) (docFilter : Option Nat) : List (RankedChunk α) :=
  let rows := table.filter fun v =>
    matchesFilter docFilter v && decide (threshold ≤ rowSimilarity dist q v)
  (sortDesc (rows.map fun v =>
    ⟨v.id, v.document_id, v.chunk_index, v.content, v.section_title,
      rowSimilarity dist q v⟩)).take lim

theorem mem_insertDesc {α : Type} [LinearOrder α] (r x : RankedChunk α)
    (l : List (RankedChunk α)) (h : x ∈ insertDesc r l) : x = r ∨ x ∈ l := by
  induction l with
  | nil => simpa [insertDesc] using h
  | cons y ys ih =>
    unfold insertDesc at h
    split at h
    · rcases List.mem_cons.mp h with rfl | h
      · exact Or.inl rfl
      · exact Or.inr h
    · rcases List.mem_cons.mp h with rfl | h
      · exact Or.inr (List.mem_cons_self _ _)
      · rcases ih h with h | h
        · exact Or.inl h
        · exact Or.inr (List.mem_cons_of_mem _ h)

theorem mem_sortDesc {α : Type} [LinearOrder α] (x : RankedChunk α)
    (l : List (RankedChunk α)) (h : x ∈ sortDesc l) : x ∈ l := by
  induction l with
  | nil => simpa [sortDesc] using h
  | cons y ys ih =>
    unfold sortDesc at h
    rcases mem_insertDesc y x _ h with rfl | h
    · exact List.mem_cons_self _ _
    · exact List.mem_cons_of_mem _ (ih h)

/-- Non-increasing similarity along the list. -/
def DescSorted {α : Type} [LinearOrder α] (l : List (RankedChunk α)) : Prop :=
  List.Pairwise (fun a b => b.similarity ≤ a.similarity) l

theorem descSorted_insertDesc {α : Type} [LinearOrder α] (r : RankedChunk α)
    (l : List (RankedChunk α)) (h : DescSorted l) : DescSorted (insertDesc r l) := by
  induction l with
  | nil => simp [insertDesc, DescSorted]
  | cons x xs ih =>
    unfold insertDesc
    split
    · rename_i hle
      refine List.Pairwise.cons ?_ h
      intro b hb
      rcases List.mem_cons.mp hb with rfl | hb
      · exact hle
      · exact le_trans (List.rel_of_pairwise_cons h hb) hle
    · rename_i hgt
      refine List.Pairwise.cons ?_ (ih (List.Pairwise.sublist (List.sublist_cons_self _ _) h))
      intro b hb
      rcases mem_insertDesc r b _ hb with rfl | hb
      · exact le_of_not_le hgt
      · exact List.rel_of_pairwise_cons h hb

theorem descSorted_sortDesc {α : Type} [LinearOrder α]
    (l : List (RankedChunk α)) : DescSorted (sortDesc l) := by
  induction l with
  | nil => simp [sortDesc, DescSorted]
  | cons x xs ih => exact descSorted_insertDesc x _ ih

end VectorRepo

open VectorRepo in
/-- C3: every similarity-search result list has at most `lim` entries, is
sorted by non-increasing similarity, and each returned row passes the
threshold, carries similarity `1 - dist(query, storedEmbedding)` for a stored
vector of the table, and respects the optional document filter. -/
theorem claim_C3_search_similar_contract {α : Type} [LinearOrder α] [One α] [Sub α]
    (dist : List α → List α → α) (table : List (StoredVector α)) (q : List α)
    (lim : Nat) (threshold : α) (docFilter : Option Nat) :
    (searchSimilar dist table q lim threshold docFilter).length ≤ lim ∧
    DescSorted (searchSimilar dist table q lim threshold docFilter) ∧
    ∀ r ∈ searchSimilar dist table q lim threshold docFilter,
      threshold ≤ r.similarity ∧
      (∃ v ∈ table, r.similarity = 1 - dist q v.embedding ∧ r.id = v.id ∧
        r.document_id = v.document_id ∧ r.chunk_index = v.chunk_index ∧
        r.content = v.content) ∧
      ∀ d, docFilter = some d → r.document_id = d := by
  refine ⟨List.length_take_le _ _, ?_, ?_⟩
  · exact List.Pairwise.sublist (List.take_sublist _ _) (descSorted_sortDesc _)
  · intro r hr
    have hr2 := mem_sortDesc _ _ (List.take_subset _ _ hr)
    obtain ⟨v, hv, hrv⟩ := List.mem_map.mp hr2
    obtain ⟨hvt, hpred⟩ := List.mem_filter.mp hv
    rw [Bool.and_eq_true, decide_eq_true_eq] at hpred
    subst hrv
    refine ⟨hpred.2, ⟨v, hvt, rfl, rfl, rfl, rfl, rfl⟩, ?_⟩
    intro d hd
    have hmf := hpred.1
    rw [hd] at hmf
    simp only [matchesFilter, beq_iff_eq] at hmf
    exact hmf

namespace ScrapeJobs

/-- Modelled from the spec: `enums/scraper_status.py` is imported throughout
the repository (`ScraperStatus`) but the file itself is absent from the
sources; the spec gives the states PENDING, IN_PROGRESS, COMPLETED, FAILED. -/
inductive ScraperStatus where
  | pending
  | inProgress
  | completed
  | failed
deriving DecidableEq, Repr

/-- `models/scrape_job.py` `ScrapeJob` (database identity and timestamp
fields are managed by the storage layer and elided). -/
structure ScrapeJob where
  url : Str
  status : ScraperStatus
  document_id : Option Nat
  error_message : Option Str
  retry_count : Nat
deriving DecidableEq, Repr

/-- `ScrapeJobRepository.mark_completed`: sets the status unconditionally —
there is no check of the current status and no JobStateError anywhere in the
repository. -/
def markCompleted (job : ScrapeJob) (documentId : Option Nat) : ScrapeJob :=
  { job with status := .completed, document_id := documentId }

/-- `ScrapeJobRepository.mark_failed`: unconditional as well; records the
error and increments the retry counter. -/
def markFailed (job : ScrapeJob) (errorMessage : Str) : ScrapeJob :=
  { job with
      status := .failed, error_message := some errorMessage,
      retry_count := job.retry_count + 1 }

/-- The reset applied per job by `retry_failed_jobs`
(`api/routers/scraper.py`): status PENDING, retry counter incremented. -/
def retryReset (job : ScrapeJob) : ScrapeJob :=
  { job with status := .pending, retry_count := job.retry_count + 1 }

/-- `retry_failed_jobs` over the job table: `get_failed_jobs(limit)` selects
the first `limit` rows whose status is FAILED and each selected job is reset;
every other row is untouched. -/
def retrySweep : List ScrapeJob → Nat → List ScrapeJob
  | [], _ => []
  | j :: rest, lim =>
    if j.status = .failed ∧ 0 < lim then retryReset j :: retrySweep rest (lim - 1)
    else j :: retrySweep rest lim

theorem retrySweep_length (jobs : List ScrapeJob) (lim : Nat) :
    (retrySweep jobs lim).length = jobs.length := by
  induction jobs generalizing lim with
  | nil => rfl
  | cons j rest ih =>
    unfold retrySweep
    split
    · simp [ih]
    · simp [ih]

/-- How many of the first `i` rows have status FAILED: the jobs the limited
`get_failed_jobs` query selects before row `i`. -/
def failedBefore (jobs : List ScrapeJob) (i : Nat) : Nat :=
  ((jobs.take i).filter fun j => j.status == .failed).length

theorem failedBefore_succ_cons (j : ScrapeJob) (rest : List ScrapeJob) (k : Nat) :
    failedBefore (j :: rest) (k + 1)
      = failedBefore rest k + (if j.status = .failed then 1 else 0) := by
  unfold failedBefore
  rw [List.take_succ_cons, List.filter_cons]
  by_cases hj : j.status = .failed
  · rw [if_pos hj, if_pos (by simp [hj])]
    simp
  · rw [if_neg hj, if_neg (by simp [hj])]
    simp

/-- Full characterization of the retry sweep: row `i` is reset exactly when
its status is FAILED and fewer than `lim` FAILED rows precede it. -/
theorem retrySweep_get?_eq :
    ∀ (jobs : List ScrapeJob) (lim i : Nat) (job : ScrapeJob),
      jobs.get? i = some job →
      (retrySweep jobs lim).get? i
        = some (if job.status = .failed ∧ failedBefore jobs i < lim
            then retryReset job else job) := by
  intro jobs
  induction jobs with
  | nil => intro lim i job h; simp at h
  | cons j rest ih =>
    intro lim i job h
    unfold retrySweep
    by_cases hcond : j.status = .failed ∧ 0 < lim
    · rw [if_pos hcond]
      cases i with
      | zero =>
        rw [List.get?_cons_zero] at h
        cases h
        rw [List.get?_cons_zero]
        rw [if_pos ⟨hcond.1, by unfold failedBefore; simp; omega⟩]
      | succ k =>
        rw [List.get?_cons_succ] at h
        rw [List.get?_cons_succ, ih (lim - 1) k job h]
        rw [failedBefore_succ_cons, if_pos hcond.1]
        by_cases hstat : job.status = .failed
        · by_cases hc : failedBefore rest k < lim - 1
          · rw [if_pos ⟨hstat, hc⟩, if_pos ⟨hstat, by omega⟩]
          · rw [if_neg (by intro hcontra; exact hc hcontra.2),
              if_neg (by intro hcontra; omega)]
        · rw [if_neg (by intro hcontra; exact hstat hcontra.1),
            if_neg (by intro hcontra; exact hstat hcontra.1)]
    · rw [if_neg hcond]
      cases i with
      | zero =>
        rw [List.get?_cons_zero] at h
        cases h
        rw [List.get?_cons_zero]
        rw [if_neg (by
          intro hcontra
          unfold failedBefore at hcontra
          simp at hcontra
          exact hcond ⟨hcontra.1, hcontra.2⟩)]
      | succ k =>
        rw [List.get?_cons_succ] at h
        rw [List.get?_cons_succ, ih lim k job h]
        rw [failedBefore_succ_cons]
        by_cases hj : j.status = .failed
        · have hlim : lim = 0 := by
            by_contra hl
            exact hcond ⟨hj, by omega⟩
          rw [if_pos hj]
          rw [if_neg (by intro hcontra; omega), if_neg (by intro hcontra; omega)]
        · rw [if_neg hj]
          simp only [Nat.add_zero]

theorem retrySweep_get?_of_not_failed :
    ∀ (jobs : List ScrapeJob) (lim i : Nat) (job : ScrapeJob),
      jobs.get? i = some job → job.status ≠ .failed →
      (retrySweep jobs lim).get? i = some job := by
  intro jobs lim i job h hnf
  rw [retrySweep_get?_eq jobs lim i job h]
  rw [if_neg (by intro hcontra; exact hnf hcontra.1)]

end ScrapeJobs

open ScrapeJobs in
/-- C6 (amended): the repository's transition helpers apply unconditionally —
`mark_completed` sets COMPLETED and `mark_failed` sets FAILED (incrementing
the retry counter) from any current state, with no JobStateError guard (no
such error exists in the code); only the retry sweep is selective: a row is
reset — to PENDING, retry counter incremented — exactly when its status is
FAILED and fewer than `limit` FAILED rows precede it, and every other row,
in particular every COMPLETED one, is left unchanged in place. -/
theorem claim_C6_job_transitions_amended (jobs : List ScrapeJob) (lim : Nat) :
    (∀ (job : ScrapeJob) (documentId : Option Nat),
      (markCompleted job documentId).status = .completed) ∧
    (∀ (job : ScrapeJob) (msg : Str),
      (markFailed job msg).status = .failed ∧
        (markFailed job msg).retry_count = job.retry_count + 1) ∧
    (∀ job : ScrapeJob, (retryReset job).status = .pending ∧
      (retryReset job).retry_count = job.retry_count + 1) ∧
    (retrySweep jobs lim).length = jobs.length ∧
    (∀ (i : Nat) (job : ScrapeJob), jobs.get? i = some job →
      (retrySweep jobs lim).get? i
        = some (if job.status = .failed ∧ failedBefore jobs i < lim
            then retryReset job else job)) ∧
    (∀ (i : Nat) (job : ScrapeJob), jobs.get? i = some job →
      job.status ≠ .failed → (retrySweep jobs lim).get? i = some job) :=
  ⟨fun _ _ => rfl, fun _ _ => ⟨rfl, rfl⟩, fun _ => ⟨rfl, rfl⟩,
    retrySweep_length jobs lim,
    fun i job h => retrySweep_get?_eq jobs lim i job h,
    fun i job h hnf => retrySweep_get?_of_not_failed jobs lim i job h hnf⟩

open ScrapeJobs in
theorem claim_C6_job_transitions_amended_witness :
    (markCompleted ⟨['u'], .pending, none, none, 0⟩ (some 3)).status = .completed ∧
    ((markFailed ⟨['u'], .inProgress, none, none, 1⟩ ['e']).status = .failed ∧
      (markFailed ⟨['u'], .inProgress, none, none, 1⟩ ['e']).retry_count = 1 + 1) ∧
    ((retryReset ⟨['v'], .failed, none, some ['e'], 2⟩).status = .pending ∧
      (retryReset ⟨['v'], .failed, none, some ['e'], 2⟩).retry_count = 2 + 1) ∧
    (retrySweep [⟨['u'], .completed, some 7, none, 0⟩, ⟨['v'], .failed, none, some ['e'], 2⟩]
        10).length
      = [(⟨['u'], .completed, some 7, none, 0⟩ : ScrapeJob),
         ⟨['v'], .failed, none, some ['e'], 2⟩].length ∧
    (retrySweep [⟨['u'], .completed, some 7, none, 0⟩, ⟨['v'], .failed, none, some ['e'], 2⟩]
        10).get? 1
      = some (if (⟨['v'], .failed, none, some ['e'], 2⟩ : ScrapeJob).status = .failed ∧
            failedBefore [⟨['u'], .completed, some 7, none, 0⟩,
              ⟨['v'], .failed, none, some ['e'], 2⟩] 1 < 10
          then retryReset ⟨['v'], .failed, none, some ['e'], 2⟩
          else ⟨['v'], .failed, none, some ['e'], 2⟩) ∧
    (retrySweep [⟨['u'], .completed, some 7, none, 0⟩, ⟨['v'], .failed, none, some ['e'], 2⟩]
        10).get? 0
      = some ⟨['u'], .completed, some 7, none, 0⟩ :=
  ⟨(claim_C6_job_transitions_amended
      [⟨['u'], .completed, some 7, none, 0⟩, ⟨['v'], .failed, none, some ['e'], 2⟩] 10).1 _ _,
   (claim_C6_job_transitions_amended
      [⟨['u'], .completed, some 7, none, 0⟩, ⟨['v'], .failed, none, some ['e'], 2⟩] 10).2.1 _ _,
   (claim_C6_job_transitions_amended
      [⟨['u'], .completed, some 7, none, 0⟩, ⟨['v'], .failed, none, some ['e'], 2⟩] 10).2.2.1 _,
   (claim_C6_job_transitions_amended
      [⟨['u'], .completed, some 7, none, 0⟩, ⟨['v'], .failed, none, some ['e'], 2⟩] 10).2.2.2.1,
   (claim_C6_job_transitions_amended
      [⟨['u'], .completed, some 7, none, 0⟩, ⟨['v'], .failed, none, some ['e'], 2⟩]
      10).2.2.2.2.1 1 _ rfl,
   (claim_C6_job_transitions_amended
      [⟨['u'], .completed, some 7, none, 0⟩, ⟨['v'], .failed, none, some ['e'], 2⟩]
      10).2.2.2.2.2 0 _ rfl (by decide)⟩

open ScrapeJobs in
/-- C6 counterexample: `mark_failed` applied to a COMPLETED job changes its
status to FAILED — the transition is applied, not rejected; COMPLETED is not
terminal under the tracker's own operations and no JobStateError is raised
(none exists in the repository). -/
theorem claim_C6_counterexample :
    (markFailed ⟨['u'], .completed, some 7, none, 0⟩ ['b']).status = .failed ∧
    (markFailed ⟨['u'], .completed, some 7, none, 0⟩ ['b']).status ≠ .completed := by
  decide

/-- Concrete distance function for the C3 instantiation. -/
def c3Dist : List ℤ → List ℤ → ℤ := fun _ _ => 0

/-- Concrete stored table for the C3 instantiation. -/
def c3Table : List (VectorRepo.StoredVector ℤ) := [⟨1, 2, 0, [], none, []⟩]

/-- Concrete search-result list for the C3 instantiation. -/
def c3Res : List (VectorRepo.RankedChunk ℤ) :=
  VectorRepo.searchSimilar c3Dist c3Table [] 5 0 none

open VectorRepo in
theorem claim_C3_search_similar_contract_witness :
    c3Res.length ≤ 5 ∧
    DescSorted c3Res ∧
    ((0 : ℤ) ≤ (⟨1, 2, 0, [], none, 1 - 0⟩ : RankedChunk ℤ).similarity ∧
      (∃ v ∈ c3Table,
        (⟨1, 2, 0, [], none, 1 - 0⟩ : RankedChunk ℤ).similarity = 1 - c3Dist [] v.embedding ∧
        (⟨1, 2, 0, [], none, 1 - 0⟩ : RankedChunk ℤ).id = v.id ∧
        (⟨1, 2, 0, [], none, 1 - 0⟩ : RankedChunk ℤ).document_id = v.document_id ∧
        (⟨1, 2, 0, [], none, 1 - 0⟩ : RankedChunk ℤ).chunk_index = v.chunk_index ∧
        (⟨1, 2, 0, [], none, 1 - 0⟩ : RankedChunk ℤ).content = v.content) ∧
      ∀ d, (none : Option Nat) = some d →
        (⟨1, 2, 0, [], none, 1 - 0⟩ : RankedChunk ℤ).document_id = d) :=
  ⟨(claim_C3_search_similar_contract c3Dist c3Table [] 5 0 none).1,
   (claim_C3_search_similar_contract c3Dist c3Table [] 5 0 none).2.1,
   (claim_C3_search_similar_contract c3Dist c3Table [] 5 0 none).2.2 _ (by decide)⟩

namespace VectorBind

/-- The value handed to the database driver by `VectorType.bind_processor`:
`None` becomes NULL, a list or tuple is serialized with `json.dumps` — kept
as a constructor holding exactly the serialized list, the stdlib serializer
being injective on numeric lists. -/
inductive BoundValue where
  | null
  | json (v : List ℚ)
deriving DecidableEq

/-- `VectorType.bind_processor`'s `process` on the values the repository
passes it (`None` or the embedding list).  The declared column dimension
(`F32_BLOB(dim)`) is not consulted anywhere in this code path. -/
def bindProcess : Option (List ℚ) → BoundValue
  | none => .null
  | some v => .json v

/-- One entry of the `chunks` argument of `create_vectors_batch`. -/
structure ChunkDict where
  content : Str
  index : Option Nat
  section_title : Option Str

/-- `models/vector.py` `DocumentVector` as built by the repository. -/
structure DocumentVector where
  document_id : Nat
  chunk_index : Nat
  content : Str
  section_title : Option Str
  embedding : List ℚ

/-- The `enumerate(zip(chunks, embeddings))` loop of
`VectorRepository.create_vectors_batch`: `chunk.get("index", i)` falls back
to the enumeration index, and the embedding is stored exactly as produced —
no length check against the configured dimension. -/
def createVectorsGo (documentId : Nat) : Nat → List (ChunkDict × List ℚ) →
    List DocumentVector
  | _, [] => []
  | i, (chunk, embedding) :: rest =>
    { document_id := documentId
      chunk_index := chunk.index.getD i
      content := chunk.content
      section_title := chunk.section_title
      embedding := embedding } :: createVectorsGo documentId (i + 1) rest

/-- `VectorRepository.create_vectors_batch` (the empty-input early return
coincides with the zip of an empty list). -/
def createVectorsBatch (documentId : Nat) (chunks : List ChunkDict)
    (embeddings : List (List ℚ)) : List DocumentVector :=
  createVectorsGo documentId 0 (chunks.zip embeddings)

theorem createVectorsGo_embeddings (documentId : Nat) :
    ∀ (i : Nat) (l : List (ChunkDict × List ℚ)),
      (createVectorsGo documentId i l).map (·.embedding) = l.map (·.2) := by
  intro i l
  induction l generalizing i with
  | nil => rfl
  | cons p rest ih =>
    cases p with
    | mk chunk embedding => simp [createVectorsGo, ih]

theorem zip_map_snd {α β : Type} :
    ∀ (l₁ : List α) (l₂ : List β), (l₁.zip l₂).map (·.2) = l₂.take l₁.length := by
  intro l₁
  induction l₁ with
  | nil => intro l₂; rfl
  | cons x xs ih =>
    intro l₂
    cases l₂ with
    | nil => rfl
    | cons y ys => simp [List.zip_cons_cons, ih]

end VectorBind

open VectorBind in
/-- C8 (amended): the application layer performs no dimension check when
storing vectors: `bind_processor` serializes the given list verbatim (NULL
for `None`), with no error path and no truncation or padding to the declared
dimension, and `create_vectors_batch` stores each produced embedding
unchanged (the batch's embeddings are exactly the first `len(chunks)`
embeddings, whatever their lengths); length enforcement is left to the
database's fixed-width F32_BLOB(dim) column. -/
theorem claim_C8_no_dimension_check_amended (v : List ℚ) (documentId : Nat)
    (chunks : List ChunkDict) (embeddings : List (List ℚ)) :
    bindProcess none = .null ∧
    bindProcess (some v) = .json v ∧
    (createVectorsBatch documentId chunks embeddings).map (·.embedding)
      = embeddings.take chunks.length :=
  ⟨rfl, rfl, by
    unfold createVectorsBatch
    rw [createVectorsGo_embeddings, zip_map_snd]⟩

open VectorBind in
/-- C8 counterexample: storing the 2-element vector `[1, 2]` against a column
declared with dimension 3 does not fail with an EmbeddingError — no such
error type exists in the repository and the bind/store path is total — nor is
the vector truncated or padded: the serialized value and the stored row carry
exactly the 2-element list. -/
theorem claim_C8_counterexample :
    bindProcess (some [1, 2]) = .json [1, 2] ∧
    ([(1 : ℚ), 2].length ≠ 3) ∧
    (createVectorsBatch 9 [⟨['c'], none, none⟩] [[1, 2]]).map (·.embedding) = [[1, 2]] :=
  ⟨rfl, by decide, rfl⟩

open VectorBind in
theorem claim_C8_no_dimension_check_amended_witness :
    bindProcess none = .null ∧
    bindProcess (some [(1 : ℚ), 2]) = .json [1, 2] ∧
    (createVectorsBatch 9 [⟨['c'], none, none⟩] [[(1 : ℚ), 2]]).map (·.embedding)
      = [[(1 : ℚ), 2]].take 1 :=
  claim_C8_no_dimension_check_amended [1, 2] 9 [⟨['c'], none, none⟩] [[1, 2]]

namespace HttpClientM

/-- Outcome of one HTTP attempt of `HttpClient.get_bytes`: a response body,
an `httpx.HTTPStatusError` raised by `raise_for_status`, or an
`httpx.RequestError` (transport failure). -/
inductive AttemptResult where
  | ok (content : List Nat)
  | httpStatusError (status : Nat)
  | requestError (msg : Str)
deriving DecidableEq, Repr

/-- Errors surfaced by `get_bytes`: the re-raised final attempt error, or the
defensive `RuntimeError` after the loop (reachable only with zero
max_retries). -/
inductive FetchError where
  | httpStatusError (status : Nat)
  | requestError (msg : Str)
  | runtimeError
deriving DecidableEq, Repr

/-- The error carried by a failed attempt, `none` for a success. -/
def attemptError : AttemptResult → Option FetchError
  | .ok _ => none
  | .httpStatusError s => some (.httpStatusError s)
  | .requestError m => some (.requestError m)

/-- The `for attempt in range(self.max_retries)` loop of
`HttpClient.get_bytes`: attempt number `attempt` yields `att attempt`; on an
error the loop re-raises when `attempt == max_retries - 1` and otherwise
sleeps `2 ** attempt` seconds (recorded in the returned list) before the next
attempt; `remaining` counts the loop iterations left, and its exhaustion is
the trailing `raise RuntimeError`.  The rate limiter and client start-up are
external effects not modelled. -/
def getBytesGo (att : Nat → AttemptResult) (maxRetries : Nat) :
    Nat → Nat → List Nat → Except FetchError (List Nat) × List Nat
  | 0, _, sleeps => (.error .runtimeError, sleeps)
  | remaining + 1, attempt, sleeps =>
    match att attempt with
    | .ok content => (.ok content, sleeps)
    | .httpStatusError s =>
      if attempt = maxRetries - 1 then (.error (.httpStatusError s), sleeps)
      else getBytesGo att maxRetries remaining (attempt + 1) (sleeps ++ [2 ^ attempt])
    | .requestError m =>
      if attempt = maxRetries - 1 then (.error (.requestError m), sleeps)
      else getBytesGo att maxRetries remaining (attempt + 1) (sleeps ++ [2 ^ attempt])

/-- `HttpClient.get_bytes`: outcome plus the backoff sleeps performed. -/
def getBytes (att : Nat → AttemptResult) (maxRetries : Nat) :
    Except FetchError (List Nat) × List Nat :=
  getBytesGo att maxRetries maxRetries 0 []

/-- U+FFFD, the Unicode replacement character. -/
def replacementChar : Char := '�'

/-- Is `b` a UTF-8 continuation byte? -/
def isCont (b : Nat) : Bool := 0x80 ≤ b && b ≤ 0xBF

/-- `bytes.decode('utf-8', errors='replace')`: a total decoder emitting one
replacement character per maximal invalid subpart.  Continuation-byte ranges
follow the UTF-8 table (E0/ED and F0/F4 rows restricted to exclude overlong
encodings and surrogates), so every produced code point is a valid scalar
value. -/
def decodeUtf8Replace : List Nat → List Char
  | [] => []
  | b :: rest =>
    if b ≤ 0x7F then Char.ofNat b :: decodeUtf8Replace rest
    else if 0xC2 ≤ b ∧ b ≤ 0xDF then
      match rest with
      | [] => [replacementChar]
      | c1 :: rest2 =>
        if isCont c1 then
          Char.ofNat ((b - 0xC0) * 64 + (c1 - 0x80)) :: decodeUtf8Replace rest2
        else replacementChar :: decodeUtf8Replace (c1 :: rest2)
    else if 0xE0 ≤ b ∧ b ≤ 0xEF then
      match rest with
      | [] => [replacementChar]
      | c1 :: rest2 =>
        if (if b = 0xE0 then 0xA0 else 0x80) ≤ c1 ∧ c1 ≤ (if b = 0xED then 0x9F else 0xBF) then
          match rest2 with
          | [] => [replacementChar]
          | c2 :: rest3 =>
            if isCont c2 then
              Char.ofNat ((b - 0xE0) * 4096 + (c1 - 0x80) * 64 + (c2 - 0x80)) ::
                decodeUtf8Replace rest3
            else replacementChar :: decodeUtf8Replace (c2 :: rest3)
        else replacementChar :: decodeUtf8Replace (c1 :: rest2)
    else if 0xF0 ≤ b ∧ b ≤ 0xF4 then
      match rest with
      | [] => [replacementChar]
      | c1 :: rest2 =>
        if (if b = 0xF0 then 0x90 else 0x80) ≤ c1 ∧ c1 ≤ (if b = 0xF4 then 0x8F else 0xBF) then
          match rest2 with
          | [] => [replacementChar]
          | c2 :: rest3 =>
            if isCont c2 then
              match rest3 with
              | [] => [replacementChar]
              | c3 :: rest4 =>
                if isCont c3 then
                  Char.ofNat ((b - 0xF0) * 262144 + (c1 - 0x80) * 4096 +
                    (c2 - 0x80) * 64 + (c3 - 0x80)) :: decodeUtf8Replace rest4
                else replacementChar :: decodeUtf8Replace (c3 :: rest4)
            else replacementChar :: decodeUtf8Replace (c2 :: rest3)
        else replacementChar :: decodeUtf8Replace (c1 :: rest2)
    else replacementChar :: decodeUtf8Replace rest

/-- `HttpClient.get_text`: fetch the bytes and decode with replacement; any
fetch error propagates unchanged, and the decode step cannot fail. -/
def getText (att : Nat → AttemptResult) (maxRetries : Nat) :
    Except FetchError (List Char) × List Nat :=
  ((getBytes att maxRetries).1.map decodeUtf8Replace, (getBytes att maxRetries).2)

end HttpClientM

set_option maxHeartbeats 1600000 in
theorem HttpClientM.decode_length_le :
    ∀ bs : List Nat,
      (HttpClientM.decodeUtf8Replace bs).length ≤ bs.length := by
  intro bs
  induction bs using HttpClientM.decodeUtf8Replace.induct with
  | case1 => simp [HttpClientM.decodeUtf8Replace]
  | case2 c1 rest2 h1 ih =>
    rw [HttpClientM.decodeUtf8Replace.eq_def]
    simp only []
    rw [if_pos h1]
    simp only [List.length_cons] at ih ⊢
    omega
  | case3 c1 h1 h2 =>
    rw [HttpClientM.decodeUtf8Replace.eq_def]
    simp only []
    rw [if_neg h1, if_pos h2]
    simp
  | case4 c1 h1 h2 c2 rest2 h3 ih =>
    rw [HttpClientM.decodeUtf8Replace.eq_def]
    simp only []
    rw [if_neg h1, if_pos h2, if_pos h3]
    simp only [List.length_cons] at ih ⊢
    omega
  | case5 c1 h1 h2 c2 rest2 h3 ih =>
    rw [HttpClientM.decodeUtf8Replace.eq_def]
    simp only []
    rw [if_neg h1, if_pos h2, if_neg h3]
    simp only [List.length_cons] at ih ⊢
    omega
  | case6 c1 h1 h2 h3 =>
    rw [HttpClientM.decodeUtf8Replace.eq_def]
    simp only []
    rw [if_neg h1, if_neg h2, if_pos h3]
    simp
  | case7 c1 h1 h2 h3 c2 h4 =>
    rw [HttpClientM.decodeUtf8Replace.eq_def]
    simp only []
    rw [if_neg h1, if_neg h2, if_pos h3, if_pos h4]
    simp
  | case8 c1 h1 h2 h3 c2 h4 c3 rest2 h5 ih =>
    rw [HttpClientM.decodeUtf8Replace.eq_def]
    simp only []
    rw [if_neg h1, if_neg h2, if_pos h3, if_pos h4, if_pos h5]
    simp only [List.length_cons] at ih ⊢
    omega
  | case9 c1 h1 h2 h3 c2 h4 c3 rest2 h5 ih =>
    rw [HttpClientM.decodeUtf8Replace.eq_def]
    simp only []
    rw [if_neg h1, if_neg h2, if_pos h3, if_pos h4, if_neg h5]
    simp only [List.length_cons] at ih ⊢
    omega
  | case10 c1 h1 h2 h3 c2 rest2 h4 ih =>
    rw [HttpClientM.decodeUtf8Replace.eq_def]
    simp only []
    rw [if_neg h1, if_neg h2, if_pos h3, if_neg h4]
    simp only [List.length_cons] at ih ⊢
    omega
  | case11 c1 h1 h2 h3 h4 =>
    rw [HttpClientM.decodeUtf8Replace.eq_def]
    simp only []
    rw [if_neg h1, if_neg h2, if_neg h3, if_pos h4]
    simp
  | case12 c1 h1 h2 h3 h4 c2 h5 =>
    rw [HttpClientM.decodeUtf8Replace.eq_def]
    simp only []
    rw [if_neg h1, if_neg h2, if_neg h3, if_pos h4, if_pos h5]
    simp
  | case13 c1 h1 h2 h3 h4 c2 h5 c3 h6 =>
    rw [HttpClientM.decodeUtf8Replace.eq_def]
    simp only []
    rw [if_neg h1, if_neg h2, if_neg h3, if_pos h4, if_pos h5, if_pos h6]
    simp
  | case14 c1 h1 h2 h3 h4 c2 h5 c3 h6 c4 rest2 h7 ih =>
    rw [HttpClientM.decodeUtf8Replace.eq_def]
    simp only []
    rw [if_neg h1, if_neg h2, if_neg h3, if_pos h4, if_pos h5, if_pos h6, if_pos h7]
    simp only [List.length_cons] at ih ⊢
    omega
  | case15 c1 h1 h2 h3 h4 c2 h5 c3 h6 c4 rest2 h7 ih =>
    rw [HttpClientM.decodeUtf8Replace.eq_def]
    simp only []
    rw [if_neg h1, if_neg h2, if_neg h3, if_pos h4, if_pos h5, if_pos h6, if_neg h7]
    simp only [List.length_cons] at ih ⊢
    omega
  | case16 c1 h1 h2 h3 h4 c2 h5 c3 rest2 h6 ih =>
    rw [HttpClientM.decodeUtf8Replace.eq_def]
    simp only []
    rw [if_neg h1, if_neg h2, if_neg h3, if_pos h4, if_pos h5, if_neg h6]
    simp only [List.length_cons] at ih ⊢
    omega
  | case17 c1 h1 h2 h3 h4 c2 rest2 h5 ih =>
    rw [HttpClientM.decodeUtf8Replace.eq_def]
    simp only []
    rw [if_neg h1, if_neg h2, if_neg h3, if_pos h4, if_neg h5]
    simp only [List.length_cons] at ih ⊢
    omega
  | case18 c1 rest2 h1 h2 h3 h4 ih =>
    rw [HttpClientM.decodeUtf8Replace.eq_def]
    simp only []
    rw [if_neg h1, if_neg h2, if_neg h3, if_neg h4]
    simp only [List.length_cons] at ih ⊢
    omega

theorem HttpClientM.decode_ascii :
    ∀ bs : List Nat, (∀ b ∈ bs, b ≤ 0x7F) →
      HttpClientM.decodeUtf8Replace bs = bs.map Char.ofNat := by
  intro bs
  induction bs with
  | nil => intro _; rfl
  | cons b rest ih =>
    intro h
    rw [HttpClientM.decodeUtf8Replace.eq_def]
    simp only []
    rw [if_pos (h b (List.mem_cons_self _ _))]
    rw [ih fun x hx => h x (List.mem_cons_of_mem _ hx)]
    rfl

theorem HttpClientM.getBytesGo_all_fail (att : Nat → HttpClientM.AttemptResult)
    (maxRetries : Nat) :
    ∀ (remaining attempt : Nat) (sleeps : List Nat),
      remaining = maxRetries - attempt → 0 < remaining →
      (∀ k, attempt ≤ k → k < maxRetries → HttpClientM.attemptError (att k) ≠ none) →
      ∃ e, HttpClientM.attemptError (att (maxRetries - 1)) = some e ∧
        HttpClientM.getBytesGo att maxRetries remaining attempt sleeps
          = (.error e,
             sleeps ++ (List.range' attempt (maxRetries - 1 - attempt)).map (2 ^ ·)) := by
  intro remaining
  induction remaining with
  | zero => intro attempt sleeps h1 h2 _; omega
  | succ r ih =>
    intro attempt sleeps h1 h2 hfail
    have hattempt : attempt < maxRetries := by omega
    have hne := hfail attempt le_rfl hattempt
    by_cases hlast : attempt = maxRetries - 1
    · cases hatt : att attempt with
      | ok content => rw [hatt] at hne; simp [HttpClientM.attemptError] at hne
      | httpStatusError s =>
        refine ⟨.httpStatusError s, ?_, ?_⟩
        · rw [← hlast, hatt]; rfl
        · unfold HttpClientM.getBytesGo
          simp only [hatt]
          rw [if_pos hlast, hlast]
          simp
      | requestError m =>
        refine ⟨.requestError m, ?_, ?_⟩
        · rw [← hlast, hatt]; rfl
        · unfold HttpClientM.getBytesGo
          simp only [hatt]
          rw [if_pos hlast, hlast]
          simp
    · have hlt : attempt < maxRetries - 1 := by omega
      have hrange : maxRetries - 1 - attempt = (maxRetries - 1 - (attempt + 1)) + 1 := by
        omega
      have hrec := ih (attempt + 1) (sleeps ++ [2 ^ attempt]) (by omega) (by omega)
        (fun k hk1 hk2 => hfail k (by omega) hk2)
      obtain ⟨e, he, heq⟩ := hrec
      refine ⟨e, he, ?_⟩
      cases hatt : att attempt with
      | ok content => rw [hatt] at hne; simp [HttpClientM.attemptError] at hne
      | httpStatusError s =>
        unfold HttpClientM.getBytesGo
        simp only [hatt]
        rw [if_neg hlast, heq, hrange, List.range'_succ]
        simp
      | requestError m =>
        unfold HttpClientM.getBytesGo
        simp only [hatt]
        rw [if_neg hlast, heq, hrange, List.range'_succ]
        simp

open HttpClientM in
/-- C9: when every attempt fails, `get_bytes` makes exactly `max_retries`
attempts, sleeping `2 ^ attempt` seconds after each non-final attempt (the
sleeps are `2^0, …, 2^(N-2)` in order), and then re-raises the final
attempt's error to the caller — the failure is surfaced, not swallowed. -/
theorem claim_C9_retry_backoff_surfaces (att : Nat → AttemptResult)
    (maxRetries : Nat) (hpos : 0 < maxRetries)
    (hfail : ∀ k, k < maxRetries → attemptError (att k) ≠ none) :
    ∃ e, attemptError (att (maxRetries - 1)) = some e ∧
      getBytes att maxRetries
        = (.error e, (List.range (maxRetries - 1)).map (2 ^ ·)) := by
  obtain ⟨e, he, heq⟩ := getBytesGo_all_fail att maxRetries maxRetries 0 []
    (by omega) hpos (fun k _ hk => hfail k hk)
  refine ⟨e, he, ?_⟩
  unfold getBytes
  rw [heq]
  simp [List.range_eq_range']

open HttpClientM in
theorem claim_C9_retry_backoff_surfaces_witness :
    ∃ e, attemptError ((fun _ => AttemptResult.httpStatusError 500) (3 - 1)) = some e ∧
      getBytes (fun _ => AttemptResult.httpStatusError 500) 3
        = (.error e, (List.range (3 - 1)).map (2 ^ ·)) :=
  claim_C9_retry_backoff_surfaces (fun _ => .httpStatusError 500) 3 (by decide)
    (fun k _ => by simp [attemptError])

open HttpClientM in
/-- C10: `get_text` fails exactly when the byte fetch fails, propagating that
same error; on success it returns the bytes decoded by the total replacement
decoder — a function defined on all byte sequences (never more characters
than bytes, and the identity transliteration on pure ASCII), so no decoding
error can be raised. -/
theorem claim_C10_get_text_never_decode_error (att : Nat → AttemptResult)
    (maxRetries : Nat) :
    (∀ content, (getBytes att maxRetries).1 = .ok content →
      (getText att maxRetries).1 = .ok (decodeUtf8Replace content)) ∧
    (∀ e, (getBytes att maxRetries).1 = .error e →
      (getText att maxRetries).1 = .error e) ∧
    (∀ bs : List Nat, (decodeUtf8Replace bs).length ≤ bs.length) ∧
    (∀ bs : List Nat, (∀ b ∈ bs, b ≤ 0x7F) →
      decodeUtf8Replace bs = bs.map Char.ofNat) := by
  refine ⟨?_, ?_, decode_length_le, decode_ascii⟩
  · intro content h
    unfold getText
    rw [h]
    rfl
  · intro e h
    unfold getText
    rw [h]
    rfl

open HttpClientM in
theorem claim_C10_get_text_never_decode_error_witness :
    (getText (fun _ => AttemptResult.ok [0x41, 0xFF]) 3).1
      = .ok (decodeUtf8Replace [0x41, 0xFF]) ∧
    (getText (fun _ => AttemptResult.requestError ['x']) 2).1
      = .error (FetchError.requestError ['x']) ∧
    (decodeUtf8Replace [0x41, 0xFF]).length ≤ 2 ∧
    decodeUtf8Replace [0x41, 0x42] = [0x41, 0x42].map Char.ofNat :=
  ⟨(claim_C10_get_text_never_decode_error (fun _ => .ok [0x41, 0xFF]) 3).1 _ rfl,
   (claim_C10_get_text_never_decode_error (fun _ => .requestError ['x']) 2).2.1 _ rfl,
   (claim_C10_get_text_never_decode_error (fun _ => .ok []) 1).2.2.1 [0x41, 0xFF],
   (claim_C10_get_text_never_decode_error (fun _ => .ok []) 1).2.2.2 [0x41, 0x42]
     (by decide)⟩
